import Mathlib

/-!
Verification development for the Denflow AI demo backend.

The embedding below translates the repository into Lean:
the three Pydantic schemas (User, LeadJob, Lead), the document store
(the persistence helpers of the missing database module are modelled
from the specification), and the FastAPI route handlers of main.py
(login, google_auth, me, request_leads, get_lead_status,
get_lead_results).

Conventions of the embedding:
- The document store is a record of the three collections, each a list
  of (key, document) pairs, together with a counter from which fresh
  keys are drawn.  Keys are naturals; their display form (the string a
  client sees, str of a bson ObjectId) is a fixed-width lowercase hex
  rendering, and a well-formed identifier string is 24 hex characters,
  exactly what the ObjectId constructor accepts from a path or query
  parameter.
- Handlers are total functions from a store and a request payload to
  an Except value: ok carries the JSON body (and the resulting store
  for mutating handlers), error carries an HTTP status and detail.
  The availability check on the db handle (the 500 branch) is ambient:
  the model assumes the store is present, as the claims about it do.
- A try/except Exception block of the source is translated faithfully:
  every exception raised inside the block, including an HTTPException
  raised by the handler itself, is replaced by the 400 error of the
  except clause.
-/

namespace Denflow

/-! ## Identifier strings (bson ObjectId display form) -/

/-- One lowercase hex character per digit value; values are always below 16. -/
def hexChar (d : Nat) : Char :=
  match d with
  | 0 => '0' | 1 => '1' | 2 => '2' | 3 => '3'
  | 4 => '4' | 5 => '5' | 6 => '6' | 7 => '7'
  | 8 => '8' | 9 => '9' | 10 => 'a' | 11 => 'b'
  | 12 => 'c' | 13 => 'd' | 14 => 'e' | 15 => 'f'
  | _ + 16 => '0'

/-- Value of a hex character, case-insensitive, as the ObjectId constructor reads it. -/
def hexVal (c : Char) : Nat :=
  if '0' ≤ c && c ≤ '9' then c.toNat - '0'.toNat
  else if 'a' ≤ c && c ≤ 'f' then c.toNat - 'a'.toNat + 10
  else if 'A' ≤ c && c ≤ 'F' then c.toNat - 'A'.toNat + 10
  else 0

def isHexDigitChar (c : Char) : Bool :=
  ('0' ≤ c && c ≤ '9') || ('a' ≤ c && c ≤ 'f') || ('A' ≤ c && c ≤ 'F')

/-- A well-formed store identifier: the 24-hex-character strings that the
ObjectId constructor accepts.  Anything else makes the constructor raise. -/
def wellFormedId (s : String) : Bool :=
  s.data.length == 24 && s.data.all isHexDigitChar

/-- Display form of the key drawn from the store counter: little-endian hex,
padded with zero digits to the 24 characters of an ObjectId.  Injective on
all of Nat, which models the store assigning globally unique identifiers. -/
def idToString (n : Nat) : String :=
  ⟨(Nat.digits 16 n ++ List.replicate (24 - (Nat.digits 16 n).length) 0).map hexChar⟩

/-- Numeric value of an identifier string (the parsed ObjectId). -/
def decodeId (s : String) : Nat :=
  Nat.ofDigits 16 (s.data.map hexVal)

/-- The ObjectId constructor applied to an untrusted string: succeeds exactly
on well-formed identifiers, raises (here: none) otherwise. -/
def parseObjectId (s : String) : Option Nat :=
  if wellFormedId s then some (decodeId s) else none

/-! ## Schemas (schemas.py) -/

/-- Users collection schema. -/
structure UserDoc where
  name : Option String
  email : String
  password_hash : Option String
  auth_provider : String
  is_active : Bool
deriving DecidableEq, Repr

/-- Lead generation job request schema. -/
structure LeadJobDoc where
  user_id : Option String
  location : String
  job_title : String
  company_size_range : String
  industry_keywords : List String
  status : String
  result_count : Nat
deriving DecidableEq, Repr

/-- Leads collection schema. -/
structure LeadDoc where
  job_id : String
  name : String
  email : Option String
  phone : Option String
  linkedin : Option String
  company : String
  title : String
  location : String
  company_size : String
  industry : Option String
deriving DecidableEq, Repr

/-- The document store: one list of (key, document) pairs per collection,
in insertion order, plus the counter supplying fresh keys. -/
@[ext]
structure Store where
  users : List (Nat × UserDoc)
  leadjobs : List (Nat × LeadJobDoc)
  leads : List (Nat × LeadDoc)
  nextId : Nat
deriving DecidableEq, Repr

/-- The store of a fresh deployment: all collections empty. -/
def store0 : Store := ⟨[], [], [], 0⟩

/-! ## Persistence helpers

The module holding create_document and get_documents is not part of the
sources; the definitions below are modelled from the specification. -/

/-- Modelled from the spec: create_document for the user collection is missing
from the sources; section 4.1 says it inserts a validated record and returns
its newly assigned identifier, opaque, store-assigned and globally unique. -/
def create_user_document (s : Store) (u : UserDoc) : String × Store :=
  (idToString s.nextId,
    { s with users := s.users ++ [(s.nextId, u)], nextId := s.nextId + 1 })

/-- Modelled from the spec: create_document for the leadjob collection, as
for create_user_document. -/
def create_leadjob_document (s : Store) (j : LeadJobDoc) : String × Store :=
  (idToString s.nextId,
    { s with leadjobs := s.leadjobs ++ [(s.nextId, j)], nextId := s.nextId + 1 })

/-- Modelled from the spec: create_document for the lead collection, as for
create_user_document. -/
def create_lead_document (s : Store) (l : LeadDoc) : String × Store :=
  (idToString s.nextId,
    { s with leads := s.leads ++ [(s.nextId, l)], nextId := s.nextId + 1 })

/-- Modelled from the spec: get_documents is missing from the sources;
section 4.1 says query(collection, filter, limit) returns up to limit
matching records in store-native order.  The only filter used by main.py
matches on the job_id string field of the lead collection. -/
def get_documents_lead (s : Store) (jid : String) (limit : Nat) : List (Nat × LeadDoc) :=
  (s.leads.filter (fun q => q.2.job_id == jid)).take limit

/-- The pymongo find_one on the user collection by email: the first stored
document matching, if any. -/
def find_user_by_email (s : Store) (e : String) : Option (Nat × UserDoc) :=
  s.users.find? (fun q => q.2.email == e)

/-- The pymongo find_one on the user collection by parsed ObjectId key. -/
def find_user_by_key (s : Store) (k : Nat) : Option (Nat × UserDoc) :=
  s.users.find? (fun q => q.1 == k)

/-- The pymongo find_one on the leadjob collection by parsed ObjectId key. -/
def find_leadjob_by_key (s : Store) (k : Nat) : Option (Nat × LeadJobDoc) :=
  s.leadjobs.find? (fun q => q.1 == k)

/-- The pymongo update_one with a set of status and result_count, keyed on the
job identifier; keys are unique, so updating every match equals updating the
first. -/
def update_leadjob_one (s : Store) (k : Nat) (st : String) (rc : Nat) : Store :=
  { s with leadjobs :=
      s.leadjobs.map (fun q =>
        if q.1 == k then (q.1, { q.2 with status := st, result_count := rc }) else q) }

/-! ## Request payloads and responses (main.py) -/

/-- Body of POST /auth/login. -/
structure LoginRequest where
  email : String
  password : String
deriving DecidableEq, Repr

/-- Body of POST /auth/google. -/
structure GoogleAuthRequest where
  email : String
  name : Option String
deriving DecidableEq, Repr

/-- Body of POST /api/leads/request. -/
structure LeadRequest where
  location : String
  job_title : String
  company_size_range : String
  industry_keywords : List String
deriving DecidableEq, Repr

/-- An HTTP error outcome: status code and detail. -/
structure HErr where
  status : Nat
  detail : String
deriving DecidableEq, Repr

/-- Response body of the two auth endpoints. -/
structure AuthResponse where
  token : String
  email : String
  name : Option String
deriving DecidableEq, Repr

/-- Response body of GET /auth/me. -/
structure MeResponse where
  email : String
  name : Option String
deriving DecidableEq, Repr

/-- Response body of POST /api/leads/request. -/
structure LeadReqResponse where
  job_id : String
  status : String
  message : String
deriving DecidableEq, Repr

/-- Response body of GET /api/leads/status. -/
structure StatusResponse where
  status : String
  result_count : Nat
deriving DecidableEq, Repr

/-- The Pydantic field constraints of LeadRequest: location and job_title of
length at least 2, company_size_range of length at least 1, industry_keywords
of at least one item.  FastAPI enforces them before the handler runs. -/
def validLeadRequest (p : LeadRequest) : Bool :=
  2 ≤ p.location.length && 2 ≤ p.job_title.length
    && 1 ≤ p.company_size_range.length && 1 ≤ p.industry_keywords.length

/-! ## Handlers (main.py) -/

/-- POST /auth/login.  Finds or creates the user by email; the password is
carried in the payload but never read.  The token is the string form of the
user key.  The re-read after creation parses the returned identifier and
fetches by key, exactly as the source does; a failure of either step would
escape the handler as a 500. -/
def login (s : Store) (p : LoginRequest) : Except HErr (AuthResponse × Store) :=
  match find_user_by_email s p.email with
  | some (uid, u) => .ok (⟨idToString uid, u.email, u.name⟩, s)
  | none =>
    match create_user_document s ⟨none, p.email, some ("demo"), "password", true⟩ with
    | (user_id, s1) =>
      match parseObjectId user_id with
      | none => .error ⟨500, "Internal Server Error"⟩
      | some oid =>
        match find_user_by_key s1 oid with
        | none => .error ⟨500, "Internal Server Error"⟩
        | some (uid, u) => .ok (⟨idToString uid, u.email, u.name⟩, s1)

/-- POST /auth/google.  Same find-or-create pattern with provider google; the
stored name is payload.name or the empty string, following the Python or. -/
def google_auth (s : Store) (p : GoogleAuthRequest) : Except HErr (AuthResponse × Store) :=
  match find_user_by_email s p.email with
  | some (uid, u) => .ok (⟨idToString uid, u.email, u.name⟩, s)
  | none =>
    match create_user_document s
        ⟨some (match p.name with | some n => n | none => ""), p.email, none, "google", true⟩ with
    | (user_id, s1) =>
      match parseObjectId user_id with
      | none => .error ⟨500, "Internal Server Error"⟩
      | some oid =>
        match find_user_by_key s1 oid with
        | none => .error ⟨500, "Internal Server Error"⟩
        | some (uid, u) => .ok (⟨idToString uid, u.email, u.name⟩, s1)

/-- GET /auth/me.  The whole body sits in a try whose except Exception maps to
400: a malformed token makes the ObjectId constructor raise, and the
HTTPException 404 raised for a missing user is itself an Exception, so it too
is caught and replaced by the 400. -/
def me (s : Store) (token : String) : Except HErr MeResponse :=
  match parseObjectId token with
  | none => .error ⟨400, "Invalid token"⟩
  | some oid =>
    match find_user_by_key s oid with
    | none => .error ⟨400, "Invalid token"⟩
    | some (_, u) => .ok ⟨u.email, u.name⟩

/-- The i-th fabricated placeholder lead of a job, for i from 1 to 10,
translating the f-strings of the source; the industry field is the first
supplied keyword (the index 0 access is guarded by the min_items=1
validation of the payload). -/
def mkLead (jid : String) (p : LeadRequest) (i : Nat) : LeadDoc :=
  ⟨jid,
   "Contact " ++ toString i,
   some ("contact" ++ toString i ++ "@example.com"),
   some ("+1-202-555-01" ++ (if i < 10 then "0" ++ toString i else toString i)),
   some ("https://linkedin.com/in/contact" ++ toString i),
   "Company " ++ toString i,
   p.job_title,
   p.location,
   p.company_size_range,
   p.industry_keywords.head?⟩

/-- The LeadJob document as first created: status processing, result_count 0. -/
def mkJob (p : LeadRequest) : LeadJobDoc :=
  ⟨none, p.location, p.job_title, p.company_size_range, p.industry_keywords, "processing", 0⟩

/-- The response message of POST /api/leads/request. -/
def msgText : String := "Your leads are being generated. You\x27ll be notified when ready."

/-- POST /api/leads/request.  After validation, creates the job, writes the
ten mock leads one by one, updates the job to ready with result_count the
length of the generated list, and answers with the job identifier and the
literal status processing.  The update parses the job identifier it just
received; a parse failure there would escape as a 500. -/
def request_leads (s : Store) (p : LeadRequest) : Except HErr (LeadReqResponse × Store) :=
  if validLeadRequest p then
    match create_leadjob_document s (mkJob p) with
    | (job_id, s1) =>
      let mock_leads := (List.range' 1 10).map (mkLead job_id p)
      let s2 := mock_leads.foldl (fun t l => (create_lead_document t l).2) s1
      match parseObjectId job_id with
      | none => .error ⟨500, "Internal Server Error"⟩
      | some oid =>
        .ok (⟨job_id, "processing", msgText⟩,
             update_leadjob_one s2 oid "ready" mock_leads.length)
  else .error ⟨422, "Unprocessable Entity"⟩

/-- GET /api/leads/status.  Same try/except shape as me: both a malformed
identifier and the HTTPException 404 raised for a missing job end up as the
400 of the except clause. -/
def get_lead_status (s : Store) (job_id : String) : Except HErr StatusResponse :=
  match parseObjectId job_id with
  | none => .error ⟨400, "Invalid job id"⟩
  | some oid =>
    match find_leadjob_by_key s oid with
    | none => .error ⟨400, "Invalid job id"⟩
    | some (_, j) => .ok ⟨j.status, j.result_count⟩

/-- GET /api/leads/results.  Parses the identifier only to validate it, then
queries leads on the job_id string field with limit 200 and serializes each
record key to its display string.  There is no job existence check and no
404 path. -/
def get_lead_results (s : Store) (job_id : String) : Except HErr (List (String × LeadDoc)) :=
  match parseObjectId job_id with
  | none => .error ⟨400, "Invalid job id"⟩
  | some _ =>
    .ok ((get_documents_lead s job_id 200).map (fun q => (idToString q.1, q.2)))

/-! ## Lemmas on the identifier encoding -/

theorem hexVal_hexChar : ∀ d, d < 16 → hexVal (hexChar d) = d := by decide

theorem isHexDigitChar_hexChar : ∀ d, d < 16 → isHexDigitChar (hexChar d) = true := by decide

theorem ofDigits_replicate_zero (k : Nat) : Nat.ofDigits 16 (List.replicate k 0) = 0 := by
  induction k with
  | zero => simp [Nat.ofDigits]
  | succ k ih => simp [List.replicate_succ, Nat.ofDigits_cons, ih]

theorem ofDigits_map_hexVal_hexChar (L : List Nat) (hL : ∀ d ∈ L, d < 16) :
    Nat.ofDigits 16 ((L.map hexChar).map hexVal) = Nat.ofDigits 16 L := by
  congr 1
  rw [List.map_map]
  refine (List.map_congr_left ?h).trans (List.map_id L)
  intro d hd
  simpa using hexVal_hexChar d (hL d hd)

theorem decodeId_idToString (n : Nat) : decodeId (idToString n) = n := by
  have hL : ∀ d ∈ Nat.digits 16 n ++ List.replicate (24 - (Nat.digits 16 n).length) 0,
      d < 16 := by
    intro d hd
    rcases List.mem_append.mp hd with h | h
    · exact Nat.digits_lt_base (by norm_num) h
    · rw [List.eq_of_mem_replicate h]; norm_num
  have hdef : decodeId (idToString n)
      = Nat.ofDigits 16
          (((Nat.digits 16 n ++ List.replicate (24 - (Nat.digits 16 n).length) 0).map
            hexChar).map hexVal) := rfl
  rw [hdef, ofDigits_map_hexVal_hexChar _ hL, Nat.ofDigits_append, Nat.ofDigits_digits,
    ofDigits_replicate_zero]
  simp

theorem idToString_injective {m n : Nat} (h : idToString m = idToString n) : m = n := by
  have := congrArg decodeId h
  simpa [decodeId_idToString] using this

theorem digits16_len_le_iff {n : Nat} :
    (Nat.digits 16 n).length ≤ 24 ↔ n < 16 ^ 24 := by
  rcases eq_or_ne n 0 with rfl | hn
  · simp [Nat.digits_zero]
  · rw [Nat.digits_len 16 n (by norm_num) hn,
      Nat.lt_pow_iff_log_lt (by norm_num) hn]
    omega

theorem idToString_data (n : Nat) :
    (idToString n).data
      = (Nat.digits 16 n ++ List.replicate (24 - (Nat.digits 16 n).length) 0).map hexChar := rfl

theorem wellFormedId_idToString_iff {n : Nat} :
    wellFormedId (idToString n) = true ↔ n < 16 ^ 24 := by
  have hall : (idToString n).data.all isHexDigitChar = true := by
    rw [idToString_data, List.all_eq_true]
    intro c hc
    rcases List.mem_map.mp hc with ⟨d, hd, rfl⟩
    rcases List.mem_append.mp hd with h | h
    · exact isHexDigitChar_hexChar d (Nat.digits_lt_base (by norm_num) h)
    · rw [List.eq_of_mem_replicate h]; decide
  have hlen : (idToString n).data.length
      = (Nat.digits 16 n).length + (24 - (Nat.digits 16 n).length) := by
    rw [idToString_data]; simp
  unfold wellFormedId
  simp only [Bool.and_eq_true, beq_iff_eq, hall, and_true, hlen]
  rw [← digits16_len_le_iff]
  omega

theorem parseObjectId_idToString {n : Nat} (hn : n < 16 ^ 24) :
    parseObjectId (idToString n) = some n := by
  unfold parseObjectId
  rw [if_pos (wellFormedId_idToString_iff.mpr hn), decodeId_idToString]

/-! ## List helpers -/

theorem find?_append_of_none {α : Type} (p : α → Bool) (l1 l2 : List α)
    (h : ∀ x ∈ l1, p x = false) :
    List.find? p (l1 ++ l2) = List.find? p l2 := by
  induction l1 with
  | nil => rfl
  | cons a l ih =>
    have ha : p a = false := h a (List.mem_cons_self a l)
    simp only [List.cons_append, List.find?, ha]
    exact ih (fun x hx => h x (List.mem_cons_of_mem a hx))

theorem snd_mem_of_mem_enumFrom {α : Type} {x : Nat × α} :
    ∀ {n : Nat} {l : List α}, x ∈ List.enumFrom n l → x.2 ∈ l := by
  intro n l
  induction l generalizing n with
  | nil => intro h; simp [List.enumFrom] at h
  | cons a l ih =>
    intro h
    rcases List.mem_cons.mp h with h | h
    · rw [h]; exact List.mem_cons_self a l
    · exact List.mem_cons_of_mem a (ih h)

/-! ## Closed form of a successful lead request -/

/-- The job document after the synchronous fulfilment: status ready,
result_count 10. -/
def readyJob (p : LeadRequest) : LeadJobDoc :=
  ⟨none, p.location, p.job_title, p.company_size_range, p.industry_keywords, "ready", 10⟩

/-- The ten lead records a request appends to the store, with their keys. -/
def newLeads (s : Store) (p : LeadRequest) : List (Nat × LeadDoc) :=
  List.enumFrom (s.nextId + 1) ((List.range' 1 10).map (mkLead (idToString s.nextId) p))

/-- Folding the per-lead creates appends the enumerated documents and advances
the counter by their number. -/
theorem foldl_create_lead (ls : List LeadDoc) (t : Store) :
    ls.foldl (fun u l => (create_lead_document u l).2) t
      = ⟨t.users, t.leadjobs, t.leads ++ List.enumFrom t.nextId ls, t.nextId + ls.length⟩ := by
  induction ls generalizing t with
  | nil => simp [List.enumFrom]
  | cons a ls ih =>
    rw [List.foldl_cons, ih]
    simp only [create_lead_document]
    refine Store.ext rfl rfl ?h1 ?h2
    · simp [List.enumFrom, List.append_assoc]
    · simp; omega

/-- Updating by a key that no stored job carries leaves the collection list
unchanged. -/
theorem update_map_skip (l : List (Nat × LeadJobDoc)) (k : Nat) (st : String) (rc : Nat)
    (h : ∀ q ∈ l, q.1 ≠ k) :
    l.map (fun q =>
        if q.1 == k then (q.1, { q.2 with status := st, result_count := rc }) else q)
      = l := by
  refine (List.map_congr_left ?hm).trans (List.map_id l)
  intro q hq
  have hne : (q.1 == k) = false := by
    simp only [beq_eq_false_iff_ne, ne_eq]
    exact h q hq
  simp [hne]

theorem request_leads_ok (s : Store) (p : LeadRequest)
    (hv : validLeadRequest p = true) (hn : s.nextId < 16 ^ 24)
    (hk : ∀ q ∈ s.leadjobs, q.1 < s.nextId) :
    request_leads s p
      = .ok (⟨idToString s.nextId, "processing", msgText⟩,
          ⟨s.users,
           s.leadjobs ++ [(s.nextId, readyJob p)],
           s.leads ++ newLeads s p,
           s.nextId + 11⟩) := by
  unfold request_leads
  rw [if_pos hv]
  simp only [create_leadjob_document]
  rw [foldl_create_lead, parseObjectId_idToString hn]
  simp only [update_leadjob_one, List.map_append]
  rw [update_map_skip _ _ _ _ (fun q hq => by have := hk q hq; omega)]
  refine congrArg (fun z => Except.ok
      (Prod.mk (LeadReqResponse.mk (idToString s.nextId) ("processing") msgText) z)) ?hs
  refine Store.ext rfl ?hjobs rfl ?hnext
  · show s.leadjobs ++ List.map _ [(s.nextId, mkJob p)] = s.leadjobs ++ [(s.nextId, readyJob p)]
    simp [mkJob, readyJob]
  · show s.nextId + 1 + ((List.range' 1 10).map (mkLead (idToString s.nextId) p)).length
      = s.nextId + 11
    simp

/-! ## Claim theorems -/

/-- Claim C9: the result of login is independent of the supplied password.
For every email and every two passwords, running login with either password
from the same store state produces identical responses and identical
resulting store states; the handler never reads the password field. -/
theorem claim_c9 (s : Store) (e p1 p2 : String) :
    login s ⟨e, p1⟩ = login s ⟨e, p2⟩ := rfl

/-- Claim C4: for every string that is not a well-formed store identifier,
passing it to get_lead_status, get_lead_results or me (store available)
yields BadRequest 400, never a 500 or an uncaught exception: the handlers
are total and answer exactly the 400 error. -/
theorem claim_c4 (s : Store) (t : String) (h : wellFormedId t = false) :
    get_lead_status s t = .error ⟨400, "Invalid job id"⟩
      ∧ get_lead_results s t = .error ⟨400, "Invalid job id"⟩
      ∧ me s t = .error ⟨400, "Invalid token"⟩ := by
  have hp : parseObjectId t = none := by
    unfold parseObjectId
    rw [h]
    rfl
  refine ⟨?h1, ?h2, ?h3⟩ <;> simp [get_lead_status, get_lead_results, me, hp]

theorem claim_c4_wit :
    wellFormedId ("not-a-store-id") = false
      ∧ (get_lead_status store0 ("not-a-store-id") = .error ⟨400, "Invalid job id"⟩
          ∧ get_lead_results store0 ("not-a-store-id") = .error ⟨400, "Invalid job id"⟩
          ∧ me store0 ("not-a-store-id") = .error ⟨400, "Invalid token"⟩) :=
  ⟨by decide, claim_c4 store0 ("not-a-store-id") (by decide)⟩

/-- Claim C3 fails on the code: for a well-formed identifier matching no
record, both get_lead_status and me answer 400, not the 404 the claim
states, because the HTTPException 404 raised inside the try block is itself
caught by the blanket except Exception and replaced by the 400 error.  This
theorem evaluates both handlers at a well-formed identifier over the empty
store. -/
theorem claim_c3_eval :
    wellFormedId ("0123456789abcdef01234567") = true
      ∧ get_lead_status store0 ("0123456789abcdef01234567")
          = .error ⟨400, "Invalid job id"⟩
      ∧ me store0 ("0123456789abcdef01234567") = .error ⟨400, "Invalid token"⟩ := by
  refine ⟨by decide, ?h1, ?h2⟩ <;> rfl

/-- Claim C7: for every well-formed job_id, get_lead_results succeeds and
returns at most 200 records, every one of which carries exactly the given
job_id in its job_id field; record keys are serialized to their display
strings. -/
theorem claim_c7 (s : Store) (jid : String) (h : wellFormedId jid = true) :
    ∃ out, get_lead_results s jid = .ok out ∧ out.length ≤ 200
      ∧ ∀ l ∈ out, l.2.job_id = jid := by
  have hp : parseObjectId jid = some (decodeId jid) := by
    unfold parseObjectId
    rw [if_pos h]
  refine ⟨(get_documents_lead s jid 200).map (fun q => (idToString q.1, q.2)), ?he, ?hlen, ?hmem⟩
  · unfold get_lead_results
    rw [hp]
  · unfold get_documents_lead
    rw [List.length_map, List.length_take]
    exact min_le_left 200 _
  · intro l hl
    rcases List.mem_map.mp hl with ⟨q, hq, rfl⟩
    have hq2 : q ∈ s.leads.filter (fun r => r.2.job_id == jid) :=
      List.take_subset 200 _ hq
    have := (List.mem_filter.mp hq2).2
    simpa [beq_iff_eq] using this

theorem claim_c7_wit :
    wellFormedId ("0123456789abcdef01234567") = true
      ∧ ∃ out, get_lead_results store0 ("0123456789abcdef01234567") = .ok out
          ∧ out.length ≤ 200
          ∧ ∀ l ∈ out, l.2.job_id = "0123456789abcdef01234567" :=
  ⟨by decide, claim_c7 store0 ("0123456789abcdef01234567") (by decide)⟩

/-- Claim C10: for every well-formed identifier matching no LeadJob and no
Lead, get_lead_results succeeds with an empty list; there is no
job-existence check and no NotFound path. -/
theorem claim_c10 (s : Store) (jid : String) (h : wellFormedId jid = true)
    (hjob : ∀ q ∈ s.leadjobs, idToString q.1 ≠ jid)
    (hlead : ∀ q ∈ s.leads, q.2.job_id ≠ jid) :
    get_lead_results s jid = .ok [] := by
  have hp : parseObjectId jid = some (decodeId jid) := by
    unfold parseObjectId
    rw [if_pos h]
  unfold get_lead_results
  rw [hp]
  have hfil : s.leads.filter (fun q => q.2.job_id == jid) = [] := by
    rw [List.filter_eq_nil_iff]
    intro q hq
    simpa [beq_iff_eq] using hlead q hq
  unfold get_documents_lead
  rw [hfil]
  rfl

theorem claim_c10_wit :
    wellFormedId ("000000000000000000000000") = true
      ∧ (∀ q ∈ store0.leadjobs, idToString q.1 ≠ "000000000000000000000000")
      ∧ (∀ q ∈ store0.leads, q.2.job_id ≠ "000000000000000000000000")
      ∧ get_lead_results store0 ("000000000000000000000000") = .ok [] :=
  ⟨by decide, by simp [store0], by simp [store0],
    claim_c10 store0 ("000000000000000000000000") (by decide)
      (by simp [store0]) (by simp [store0])⟩

/-- The demo payload of the specification example. -/
def payload0 : LeadRequest := ⟨"NYC", "Engineer", "11-50", ["SaaS"]⟩

/-- The response and store produced by the demo payload on a fresh store. -/
def out0 : LeadReqResponse × Store :=
  (⟨idToString 0, "processing", msgText⟩,
   ⟨[], [(0, readyJob payload0)], newLeads store0 payload0, 11⟩)

theorem request_leads_out0 : request_leads store0 payload0 = .ok out0 :=
  request_leads_ok store0 payload0 (by decide) (by decide) (by simp [store0])

/-- Claim C1: every valid lead request (with an unexhausted id space and a
store whose job keys are all older than the counter) succeeds, appends
exactly 10 lead records, each carrying the returned job_id, deletes nothing,
and leaves the created job with result_count 10. -/
theorem claim_c1 (s : Store) (p : LeadRequest)
    (hv : validLeadRequest p = true) (hn : s.nextId < 16 ^ 24)
    (hk : ∀ q ∈ s.leadjobs, q.1 < s.nextId) :
    ∃ r s', request_leads s p = .ok (r, s')
      ∧ (s'.leads.drop s.leads.length).length = 10
      ∧ (∀ q ∈ s'.leads.drop s.leads.length, q.2.job_id = r.job_id)
      ∧ s'.leads.take s.leads.length = s.leads
      ∧ ∃ oid jd, parseObjectId r.job_id = some oid
          ∧ find_leadjob_by_key s' oid = some (oid, jd)
          ∧ jd.result_count = 10 := by
  refine ⟨_, _, request_leads_ok s p hv hn hk, ?hlen, ?hjid, ?htake,
    s.nextId, readyJob p, ?hoid, ?hfind, rfl⟩
  · show ((s.leads ++ newLeads s p).drop s.leads.length).length = 10
    rw [List.drop_left]
    simp [newLeads]
  · show ∀ q ∈ (s.leads ++ newLeads s p).drop s.leads.length, q.2.job_id = idToString s.nextId
    rw [List.drop_left]
    intro q hq
    have hm := snd_mem_of_mem_enumFrom hq
    rcases List.mem_map.mp hm with ⟨i, _, hi⟩
    rw [← hi]
    rfl
  · show (s.leads ++ newLeads s p).take s.leads.length = s.leads
    exact List.take_left s.leads (newLeads s p)
  · exact parseObjectId_idToString hn
  · show (s.leadjobs ++ [(s.nextId, readyJob p)]).find? (fun q => q.1 == s.nextId)
        = some (s.nextId, readyJob p)
    rw [find?_append_of_none _ _ _
      (fun q hq => by have := hk q hq; simp only [beq_eq_false_iff_ne, ne_eq]; omega)]
    simp [List.find?]

theorem claim_c1_wit :
    validLeadRequest payload0 = true
      ∧ store0.nextId < 16 ^ 24
      ∧ (∀ q ∈ store0.leadjobs, q.1 < store0.nextId)
      ∧ ∃ r s', request_leads store0 payload0 = .ok (r, s')
          ∧ (s'.leads.drop store0.leads.length).length = 10
          ∧ (∀ q ∈ s'.leads.drop store0.leads.length, q.2.job_id = r.job_id)
          ∧ s'.leads.take store0.leads.length = store0.leads
          ∧ ∃ oid jd, parseObjectId r.job_id = some oid
              ∧ find_leadjob_by_key s' oid = some (oid, jd)
              ∧ jd.result_count = 10 :=
  ⟨by decide, by decide, by simp [store0],
    claim_c1 store0 payload0 (by decide) (by decide) (by simp [store0])⟩

/-- Claim C2: immediately after any successful lead request, querying the
status of the returned job_id answers status ready with result_count 10;
fulfilment is synchronous inside the request call. -/
theorem claim_c2 (s : Store) (p : LeadRequest)
    (hv : validLeadRequest p = true) (hn : s.nextId < 16 ^ 24)
    (hk : ∀ q ∈ s.leadjobs, q.1 < s.nextId)
    (out : LeadReqResponse × Store) (h : request_leads s p = .ok out) :
    get_lead_status out.2 out.1.job_id = .ok ⟨"ready", 10⟩ := by
  rw [request_leads_ok s p hv hn hk] at h
  injection h with h
  subst h
  show get_lead_status
      ⟨s.users, s.leadjobs ++ [(s.nextId, readyJob p)], s.leads ++ newLeads s p, s.nextId + 11⟩
      (idToString s.nextId) = .ok ⟨"ready", 10⟩
  unfold get_lead_status
  have hfind : find_leadjob_by_key
      ⟨s.users, s.leadjobs ++ [(s.nextId, readyJob p)], s.leads ++ newLeads s p, s.nextId + 11⟩
      s.nextId = some (s.nextId, readyJob p) := by
    show (s.leadjobs ++ [(s.nextId, readyJob p)]).find? (fun q => q.1 == s.nextId)
        = some (s.nextId, readyJob p)
    rw [find?_append_of_none _ _ _
      (fun q hq => by have := hk q hq; simp only [beq_eq_false_iff_ne, ne_eq]; omega)]
    simp [List.find?]
  simp only [parseObjectId_idToString hn, hfind]
  rfl

theorem claim_c2_wit :
    validLeadRequest payload0 = true
      ∧ store0.nextId < 16 ^ 24
      ∧ (∀ q ∈ store0.leadjobs, q.1 < store0.nextId)
      ∧ request_leads store0 payload0 = .ok out0
      ∧ get_lead_status out0.2 out0.1.job_id = .ok ⟨"ready", 10⟩ :=
  ⟨by decide, by decide, by simp [store0], request_leads_out0,
    claim_c2 store0 payload0 (by decide) (by decide) (by simp [store0]) out0
      request_leads_out0⟩

/-- Claim C8: the ten leads appended by a successful request are, in order,
for i from 1 to 10, the records with name Contact i, email
contacti at example.com, phone and linkedin embedding the index i, industry
the first supplied keyword, and title, location and company size copied
from the request; in particular the first lead is Contact 1 with email
contact1 at example.com. -/
theorem claim_c8 (s : Store) (p : LeadRequest)
    (hv : validLeadRequest p = true) (hn : s.nextId < 16 ^ 24)
    (hk : ∀ q ∈ s.leadjobs, q.1 < s.nextId)
    (out : LeadReqResponse × Store) (h : request_leads s p = .ok out) :
    out.2.leads.drop s.leads.length
        = (List.range' 1 10).map (fun i =>
            (s.nextId + i,
             (⟨out.1.job_id,
               "Contact " ++ toString i,
               some ("contact" ++ toString i ++ "@example.com"),
               some ("+1-202-555-01" ++ (if i < 10 then "0" ++ toString i else toString i)),
               some ("https://linkedin.com/in/contact" ++ toString i),
               "Company " ++ toString i,
               p.job_title,
               p.location,
               p.company_size_range,
               p.industry_keywords.head?⟩ : LeadDoc)))
      ∧ (out.2.leads.drop s.leads.length).head?.map (fun q => (q.2.name, q.2.email))
          = some ("Contact 1", some ("contact1@example.com")) := by
  rw [request_leads_ok s p hv hn hk] at h
  injection h with h
  subst h
  have hdrop : (⟨s.users, s.leadjobs ++ [(s.nextId, readyJob p)],
      s.leads ++ newLeads s p, s.nextId + 11⟩ : Store).leads.drop s.leads.length
      = newLeads s p := List.drop_left s.leads (newLeads s p)
  rw [hdrop]
  constructor
  · show List.enumFrom (s.nextId + 1) ((List.range' 1 10).map (mkLead (idToString s.nextId) p))
        = _
    refine List.ext_getElem ?hl ?hp
    · simp
    · intro j h1 h2
      simp only [List.getElem_enumFrom, List.getElem_map, List.getElem_range']
      refine Prod.ext ?hfst ?hsnd
      · show s.nextId + 1 + j = s.nextId + (1 + 1 * j)
        omega
      · rfl
  · show (List.enumFrom (s.nextId + 1)
        ((List.range' 1 10).map (mkLead (idToString s.nextId) p))).head?.map
          (fun q => (q.2.name, q.2.email))
      = some ("Contact 1", some ("contact1@example.com"))
    rfl

theorem claim_c8_wit :
    validLeadRequest payload0 = true
      ∧ store0.nextId < 16 ^ 24
      ∧ (∀ q ∈ store0.leadjobs, q.1 < store0.nextId)
      ∧ request_leads store0 payload0 = .ok out0
      ∧ (out0.2.leads.drop store0.leads.length
            = (List.range' 1 10).map (fun i =>
                (store0.nextId + i,
                 (⟨out0.1.job_id,
                   "Contact " ++ toString i,
                   some ("contact" ++ toString i ++ "@example.com"),
                   some ("+1-202-555-01" ++ (if i < 10 then "0" ++ toString i else toString i)),
                   some ("https://linkedin.com/in/contact" ++ toString i),
                   "Company " ++ toString i,
                   payload0.job_title,
                   payload0.location,
                   payload0.company_size_range,
                   payload0.industry_keywords.head?⟩ : LeadDoc)))
          ∧ (out0.2.leads.drop store0.leads.length).head?.map (fun q => (q.2.name, q.2.email))
              = some ("Contact 1", some ("contact1@example.com"))) :=
  ⟨by decide, by decide, by simp [store0], request_leads_out0,
    claim_c8 store0 payload0 (by decide) (by decide) (by simp [store0]) out0
      request_leads_out0⟩

/-! ## Characterization of the auth handlers -/

/-- Number of user records holding a given email. -/
def countEmail (s : Store) (e : String) : Nat :=
  (s.users.filter (fun q => q.2.email == e)).length

theorem login_found (s : Store) (p : LoginRequest) (uid : Nat) (u : UserDoc)
    (hfind : find_user_by_email s p.email = some (uid, u)) :
    login s p = .ok (⟨idToString uid, u.email, u.name⟩, s) := by
  unfold login
  rw [hfind]

theorem google_found (s : Store) (p : GoogleAuthRequest) (uid : Nat) (u : UserDoc)
    (hfind : find_user_by_email s p.email = some (uid, u)) :
    google_auth s p = .ok (⟨idToString uid, u.email, u.name⟩, s) := by
  unfold google_auth
  rw [hfind]

theorem find_key_insert (s : Store) (u : UserDoc)
    (hk : ∀ q ∈ s.users, q.1 < s.nextId) :
    find_user_by_key
        ⟨s.users ++ [(s.nextId, u)], s.leadjobs, s.leads, s.nextId + 1⟩ s.nextId
      = some (s.nextId, u) := by
  show (s.users ++ [(s.nextId, u)]).find? (fun q => q.1 == s.nextId) = some (s.nextId, u)
  rw [find?_append_of_none _ _ _
    (fun q hq => by have := hk q hq; simp only [beq_eq_false_iff_ne, ne_eq]; omega)]
  simp [List.find?]

theorem find_email_insert (s : Store) (e : String) (u : UserDoc) (n : Nat) (hu : u.email = e)
    (hnone : find_user_by_email s e = none) :
    find_user_by_email ⟨s.users ++ [(n, u)], s.leadjobs, s.leads, s.nextId + 1⟩ e
      = some (n, u) := by
  show (s.users ++ [(n, u)]).find? (fun q => q.2.email == e) = some (n, u)
  rw [find?_append_of_none _ _ _ (fun q hq => by
    have := List.find?_eq_none.mp hnone q hq
    simpa using this)]
  simp [List.find?, hu]

theorem countEmail_insert (s : Store) (e : String) (u : UserDoc) (n : Nat) (hu : u.email = e)
    (hnone : find_user_by_email s e = none) :
    countEmail ⟨s.users ++ [(n, u)], s.leadjobs, s.leads, s.nextId + 1⟩ e = 1 := by
  show ((s.users ++ [(n, u)]).filter (fun q => q.2.email == e)).length = 1
  rw [List.filter_append]
  have h1 : s.users.filter (fun q => q.2.email == e) = [] := by
    rw [List.filter_eq_nil_iff]
    intro q hq
    have := List.find?_eq_none.mp hnone q hq
    simpa using this
  rw [h1]
  simp [hu]

theorem countEmail_eq_one_of_found (s : Store) (e : String) (x : Nat × UserDoc)
    (h : find_user_by_email s e = some x) (hc : countEmail s e ≤ 1) :
    countEmail s e = 1 := by
  have h' : s.users.find? (fun q => q.2.email == e) = some x := h
  have hmem := List.mem_of_find?_eq_some h'
  have hpred := List.find?_some h'
  have hx : x ∈ s.users.filter (fun q => q.2.email == e) :=
    List.mem_filter.mpr ⟨hmem, hpred⟩
  have hpos : 0 < (s.users.filter (fun q => q.2.email == e)).length :=
    List.length_pos.mpr (List.ne_nil_of_mem hx)
  unfold countEmail at hc ⊢
  omega

theorem login_create (s : Store) (p : LoginRequest)
    (hfind : find_user_by_email s p.email = none)
    (hk : ∀ q ∈ s.users, q.1 < s.nextId) (hn : s.nextId < 16 ^ 24) :
    login s p = .ok (⟨idToString s.nextId, p.email, none⟩,
      ⟨s.users ++ [(s.nextId, ⟨none, p.email, some ("demo"), "password", true⟩)],
       s.leadjobs, s.leads, s.nextId + 1⟩) := by
  have hkey := find_key_insert s ⟨none, p.email, some ("demo"), "password", true⟩ hk
  simp only [login, hfind, create_user_document, parseObjectId_idToString hn, hkey]

theorem google_create (s : Store) (p : GoogleAuthRequest)
    (hfind : find_user_by_email s p.email = none)
    (hk : ∀ q ∈ s.users, q.1 < s.nextId) (hn : s.nextId < 16 ^ 24) :
    google_auth s p
      = .ok (⟨idToString s.nextId, p.email,
          some (match p.name with | some n => n | none => "")⟩,
        ⟨s.users ++ [(s.nextId,
            ⟨some (match p.name with | some n => n | none => ""), p.email, none, "google", true⟩)],
         s.leadjobs, s.leads, s.nextId + 1⟩) := by
  have hkey := find_key_insert s
    ⟨some (match p.name with | some n => n | none => ""), p.email, none, "google", true⟩ hk
  simp only [google_auth, hfind, create_user_document, parseObjectId_idToString hn, hkey]

/-- Claim C5: login and google_auth are idempotent on email.  From a store
whose keys are older than the counter, with at most one record holding the
email (sequential, race-free history) and id space not exhausted, two
sequential calls with the same email both succeed, return the same token,
and leave exactly one user record with that email. -/
theorem claim_c5 (s : Store) (e pw1 pw2 : String) (nm1 nm2 : Option String)
    (hk : ∀ q ∈ s.users, q.1 < s.nextId) (hn : s.nextId < 16 ^ 24)
    (hc : countEmail s e ≤ 1) :
    (∃ r1 s1 r2 s2, login s ⟨e, pw1⟩ = .ok (r1, s1)
        ∧ login s1 ⟨e, pw2⟩ = .ok (r2, s2)
        ∧ r1.token = r2.token ∧ countEmail s2 e = 1)
    ∧ (∃ r1 s1 r2 s2, google_auth s ⟨e, nm1⟩ = .ok (r1, s1)
        ∧ google_auth s1 ⟨e, nm2⟩ = .ok (r2, s2)
        ∧ r1.token = r2.token ∧ countEmail s2 e = 1) := by
  constructor
  · cases hfind : find_user_by_email s e with
    | some x =>
      obtain ⟨uid, u⟩ := x
      exact ⟨⟨idToString uid, u.email, u.name⟩, s, ⟨idToString uid, u.email, u.name⟩, s,
        login_found s ⟨e, pw1⟩ uid u hfind, login_found s ⟨e, pw2⟩ uid u hfind, rfl,
        countEmail_eq_one_of_found s e (uid, u) hfind hc⟩
    | none =>
      refine ⟨⟨idToString s.nextId, e, none⟩,
        ⟨s.users ++ [(s.nextId, ⟨none, e, some ("demo"), "password", true⟩)],
         s.leadjobs, s.leads, s.nextId + 1⟩,
        ⟨idToString s.nextId, e, none⟩,
        ⟨s.users ++ [(s.nextId, ⟨none, e, some ("demo"), "password", true⟩)],
         s.leadjobs, s.leads, s.nextId + 1⟩,
        login_create s ⟨e, pw1⟩ hfind hk hn, ?h2, rfl, ?hc1⟩
      · exact login_found _ ⟨e, pw2⟩ s.nextId ⟨none, e, some ("demo"), "password", true⟩
          (find_email_insert s e ⟨none, e, some ("demo"), "password", true⟩ s.nextId rfl hfind)
      · exact countEmail_insert s e ⟨none, e, some ("demo"), "password", true⟩ s.nextId rfl hfind
  · cases hfind : find_user_by_email s e with
    | some x =>
      obtain ⟨uid, u⟩ := x
      exact ⟨⟨idToString uid, u.email, u.name⟩, s, ⟨idToString uid, u.email, u.name⟩, s,
        google_found s ⟨e, nm1⟩ uid u hfind, google_found s ⟨e, nm2⟩ uid u hfind, rfl,
        countEmail_eq_one_of_found s e (uid, u) hfind hc⟩
    | none =>
      refine ⟨⟨idToString s.nextId, e, some (match nm1 with | some n => n | none => "")⟩,
        ⟨s.users ++ [(s.nextId,
            ⟨some (match nm1 with | some n => n | none => ""), e, none, "google", true⟩)],
         s.leadjobs, s.leads, s.nextId + 1⟩,
        ⟨idToString s.nextId, e, some (match nm1 with | some n => n | none => "")⟩,
        ⟨s.users ++ [(s.nextId,
            ⟨some (match nm1 with | some n => n | none => ""), e, none, "google", true⟩)],
         s.leadjobs, s.leads, s.nextId + 1⟩,
        google_create s ⟨e, nm1⟩ hfind hk hn, ?g2, rfl, ?gc1⟩
      · exact google_found _ ⟨e, nm2⟩ s.nextId
          ⟨some (match nm1 with | some n => n | none => ""), e, none, "google", true⟩
          (find_email_insert s e
            ⟨some (match nm1 with | some n => n | none => ""), e, none, "google", true⟩
            s.nextId rfl hfind)
      · exact countEmail_insert s e
          ⟨some (match nm1 with | some n => n | none => ""), e, none, "google", true⟩
          s.nextId rfl hfind

theorem claim_c5_wit :
    (∀ q ∈ store0.users, q.1 < store0.nextId) ∧ store0.nextId < 16 ^ 24
      ∧ countEmail store0 ("ada@example.com") ≤ 1
      ∧ ((∃ r1 s1 r2 s2, login store0 ⟨"ada@example.com", "pw-one"⟩ = .ok (r1, s1)
            ∧ login s1 ⟨"ada@example.com", "pw-two"⟩ = .ok (r2, s2)
            ∧ r1.token = r2.token ∧ countEmail s2 ("ada@example.com") = 1)
        ∧ (∃ r1 s1 r2 s2, google_auth store0 ⟨"ada@example.com", some ("Ada")⟩ = .ok (r1, s1)
            ∧ google_auth s1 ⟨"ada@example.com", none⟩ = .ok (r2, s2)
            ∧ r1.token = r2.token ∧ countEmail s2 ("ada@example.com") = 1)) :=
  ⟨by simp [store0], by decide, by decide,
    claim_c5 store0 ("ada@example.com") ("pw-one") ("pw-two") (some ("Ada")) none
      (by simp [store0]) (by decide) (by decide)⟩

/-! ## Reachable states and the result_count invariant -/

/-- States reachable from a fresh store by successful API calls.  The
read-only endpoints (me, get_lead_status, get_lead_results and the two
diagnostic routes) do not write to the store, so only the three mutating
handlers appear. -/
inductive Reachable : Store → Prop where
  | init : Reachable store0
  | login_step {s : Store} {p : LoginRequest} {r : AuthResponse} {s' : Store} :
      Reachable s → login s p = .ok (r, s') → Reachable s'
  | google_step {s : Store} {p : GoogleAuthRequest} {r : AuthResponse} {s' : Store} :
      Reachable s → google_auth s p = .ok (r, s') → Reachable s'
  | leads_step {s : Store} {p : LeadRequest} {r : LeadReqResponse} {s' : Store} :
      Reachable s → request_leads s p = .ok (r, s') → Reachable s'

/-- Number of lead records referencing the job stored under a key. -/
def leadsFor (s : Store) (k : Nat) : Nat :=
  (s.leads.filter (fun q => q.2.job_id == idToString k)).length

/-- Every ready job counts exactly the lead records referencing it. -/
def jobCountInv (s : Store) : Prop :=
  ∀ q ∈ s.leadjobs, q.2.status = "ready" → q.2.result_count = leadsFor s q.1

/-- The inductive invariant: stored keys are older than the counter, every
lead references the display form of a key older than the counter, and the
ready-job count property holds. -/
def storeInv (s : Store) : Prop :=
  (∀ q ∈ s.leadjobs, q.1 < s.nextId)
  ∧ (∀ q ∈ s.leads, q.1 < s.nextId)
  ∧ (∀ q ∈ s.leads, ∃ k, k < s.nextId ∧ q.2.job_id = idToString k)
  ∧ jobCountInv s

theorem fst_lt_of_mem_enumFrom {α : Type} {x : Nat × α} :
    ∀ {m : Nat} {l : List α}, x ∈ List.enumFrom m l → x.1 < m + l.length := by
  intro m l
  induction l generalizing m with
  | nil => intro h; simp [List.enumFrom] at h
  | cons a l ih =>
    intro h
    rcases List.mem_cons.mp h with h | h
    · rw [h]; simp
    · have := ih h
      simp only [List.length_cons]
      omega

theorem newLeads_job_id {s : Store} {p : LeadRequest} :
    ∀ q ∈ newLeads s p, q.2.job_id = idToString s.nextId := by
  intro q hq
  have hm := snd_mem_of_mem_enumFrom hq
  rcases List.mem_map.mp hm with ⟨i, _, hi⟩
  rw [← hi]
  rfl

theorem length_newLeads (s : Store) (p : LeadRequest) : (newLeads s p).length = 10 := by
  simp [newLeads]

theorem filter_newLeads_self (s : Store) (p : LeadRequest) :
    (newLeads s p).filter (fun q => q.2.job_id == idToString s.nextId) = newLeads s p := by
  rw [List.filter_eq_self]
  intro q hq
  simp [newLeads_job_id q hq]

theorem filter_newLeads_other (s : Store) (p : LeadRequest) (k : Nat) (hk : k ≠ s.nextId) :
    (newLeads s p).filter (fun q => q.2.job_id == idToString k) = [] := by
  rw [List.filter_eq_nil_iff]
  intro q hq
  rw [newLeads_job_id q hq]
  simp only [beq_iff_eq]
  intro heq
  exact hk (idToString_injective heq.symm)

theorem request_leads_ok_bounds {s : Store} {p : LeadRequest}
    {out : LeadReqResponse × Store} (h : request_leads s p = .ok out) :
    validLeadRequest p = true ∧ s.nextId < 16 ^ 24 := by
  unfold request_leads at h
  by_cases hv : validLeadRequest p = true
  · refine ⟨hv, ?hn⟩
    rw [if_pos hv] at h
    simp only [create_leadjob_document] at h
    by_cases hw : wellFormedId (idToString s.nextId) = true
    · exact wellFormedId_idToString_iff.mp hw
    · have hp : parseObjectId (idToString s.nextId) = none := by
        unfold parseObjectId
        rw [if_neg hw]
      simp [hp] at h
  · rw [if_neg hv] at h
    cases h

theorem login_ok_shape {s : Store} {p : LoginRequest} {r : AuthResponse} {s' : Store}
    (h : login s p = .ok (r, s')) :
    s'.leadjobs = s.leadjobs ∧ s'.leads = s.leads ∧ s.nextId ≤ s'.nextId := by
  unfold login at h
  cases hfind : find_user_by_email s p.email with
  | some x =>
    obtain ⟨uid, u⟩ := x
    simp only [hfind] at h
    have hs : s' = s := (congrArg Prod.snd (Except.ok.inj h)).symm
    rw [hs]
    exact ⟨rfl, rfl, le_refl _⟩
  | none =>
    simp only [hfind, create_user_document] at h
    cases hp : parseObjectId (idToString s.nextId) with
    | none => simp [hp] at h
    | some oid =>
      simp only [hp] at h
      cases hf : find_user_by_key
          ⟨s.users ++ [(s.nextId, ⟨none, p.email, some ("demo"), "password", true⟩)],
           s.leadjobs, s.leads, s.nextId + 1⟩ oid with
      | none => simp [hf] at h
      | some x =>
        obtain ⟨uid, u⟩ := x
        simp only [hf] at h
        have hs : s'
            = ⟨s.users ++ [(s.nextId, ⟨none, p.email, some ("demo"), "password", true⟩)],
               s.leadjobs, s.leads, s.nextId + 1⟩ :=
          (congrArg Prod.snd (Except.ok.inj h)).symm
        rw [hs]
        exact ⟨rfl, rfl, Nat.le_succ s.nextId⟩

theorem google_ok_shape {s : Store} {p : GoogleAuthRequest} {r : AuthResponse} {s' : Store}
    (h : google_auth s p = .ok (r, s')) :
    s'.leadjobs = s.leadjobs ∧ s'.leads = s.leads ∧ s.nextId ≤ s'.nextId := by
  unfold google_auth at h
  cases hfind : find_user_by_email s p.email with
  | some x =>
    obtain ⟨uid, u⟩ := x
    simp only [hfind] at h
    have hs : s' = s := (congrArg Prod.snd (Except.ok.inj h)).symm
    rw [hs]
    exact ⟨rfl, rfl, le_refl _⟩
  | none =>
    simp only [hfind, create_user_document] at h
    cases hp : parseObjectId (idToString s.nextId) with
    | none => simp [hp] at h
    | some oid =>
      simp only [hp] at h
      cases hf : find_user_by_key
          ⟨s.users ++ [(s.nextId,
              ⟨some (match p.name with | some n => n | none => ""), p.email, none,
               "google", true⟩)],
           s.leadjobs, s.leads, s.nextId + 1⟩ oid with
      | none => simp [hf] at h
      | some x =>
        obtain ⟨uid, u⟩ := x
        simp only [hf] at h
        have hs : s'
            = ⟨s.users ++ [(s.nextId,
                ⟨some (match p.name with | some n => n | none => ""), p.email, none,
                 "google", true⟩)],
               s.leadjobs, s.leads, s.nextId + 1⟩ :=
          (congrArg Prod.snd (Except.ok.inj h)).symm
        rw [hs]
        exact ⟨rfl, rfl, Nat.le_succ s.nextId⟩

theorem storeInv_mono_auth {s s' : Store}
    (hjobs : s'.leadjobs = s.leadjobs) (hleads : s'.leads = s.leads)
    (hn : s.nextId ≤ s'.nextId) (ih : storeInv s) : storeInv s' := by
  obtain ⟨i1, i2, i3, i4⟩ := ih
  refine ⟨?c1, ?c2, ?c3, ?c4⟩
  · rw [hjobs]; intro q hq; have := i1 q hq; omega
  · rw [hleads]; intro q hq; have := i2 q hq; omega
  · rw [hleads]
    intro q hq
    obtain ⟨k, hk, hjid⟩ := i3 q hq
    exact ⟨k, by omega, hjid⟩
  · unfold jobCountInv leadsFor
    rw [hjobs, hleads]
    exact i4

theorem storeInv_leads_step {s : Store} {p : LeadRequest}
    (hv : validLeadRequest p = true) (hn : s.nextId < 16 ^ 24) (ih : storeInv s) :
    storeInv ⟨s.users, s.leadjobs ++ [(s.nextId, readyJob p)],
      s.leads ++ newLeads s p, s.nextId + 11⟩ := by
  obtain ⟨i1, i2, i3, i4⟩ := ih
  refine ⟨?c1, ?c2, ?c3, ?c4⟩
  · intro q hq
    rcases List.mem_append.mp hq with h | h
    · have := i1 q h; simp only; omega
    · rcases List.mem_singleton.mp h with rfl
      simp only
      omega
  · intro q hq
    rcases List.mem_append.mp hq with h | h
    · have := i2 q h; simp only; omega
    · have hb := fst_lt_of_mem_enumFrom h
      rw [List.length_map, List.length_range'] at hb
      simp only
      omega
  · intro q hq
    rcases List.mem_append.mp hq with h | h
    · obtain ⟨k, hk, hjid⟩ := i3 q h
      exact ⟨k, by simp only; omega, hjid⟩
    · exact ⟨s.nextId, by simp only; omega, newLeads_job_id q h⟩
  · intro q hq hready
    rcases List.mem_append.mp hq with h | h
    · have hcnt := i4 q h hready
      have hkq := i1 q h
      unfold leadsFor
      show q.2.result_count
          = ((s.leads ++ newLeads s p).filter (fun l => l.2.job_id == idToString q.1)).length
      rw [List.filter_append, List.length_append,
        filter_newLeads_other s p q.1 (by omega)]
      simpa [leadsFor] using hcnt
    · rcases List.mem_singleton.mp h with rfl
      show (readyJob p).result_count
          = leadsFor ⟨s.users, s.leadjobs ++ [(s.nextId, readyJob p)],
              s.leads ++ newLeads s p, s.nextId + 11⟩ s.nextId
      unfold leadsFor
      show 10 = ((s.leads ++ newLeads s p).filter
          (fun l => l.2.job_id == idToString s.nextId)).length
      rw [List.filter_append, List.length_append, filter_newLeads_self,
        length_newLeads]
      have hold : s.leads.filter (fun l => l.2.job_id == idToString s.nextId) = [] := by
        rw [List.filter_eq_nil_iff]
        intro l hl
        obtain ⟨k, hk, hjid⟩ := i3 l hl
        rw [hjid]
        simp only [beq_iff_eq]
        intro heq
        have := idToString_injective heq
        omega
      rw [hold]
      rfl

theorem storeInv_reachable : ∀ s : Store, Reachable s → storeInv s := by
  intro s h
  induction h with
  | init =>
    refine ⟨?c1, ?c2, ?c3, ?c4⟩ <;> intro q hq <;> simp [store0] at hq
  | login_step hr hok ih =>
    obtain ⟨h1, h2, h3⟩ := login_ok_shape hok
    exact storeInv_mono_auth h1 h2 h3 ih
  | google_step hr hok ih =>
    obtain ⟨h1, h2, h3⟩ := google_ok_shape hok
    exact storeInv_mono_auth h1 h2 h3 ih
  | leads_step hr hok ih =>
    obtain ⟨hv, hn⟩ := request_leads_ok_bounds hok
    rw [request_leads_ok _ _ hv hn ih.1] at hok
    injection hok with hok
    injection hok with hok1 hok2
    rw [← hok2]
    exact storeInv_leads_step hv hn ih

/-- Claim C6: in every state reachable by the API operations (all store
writes succeeding), every LeadJob with status ready has result_count equal
to the number of Lead records whose job_id references that job. -/
theorem claim_c6 (s : Store) (h : Reachable s) : jobCountInv s :=
  (storeInv_reachable s h).2.2.2

theorem claim_c6_wit : jobCountInv store0 := claim_c6 store0 Reachable.init

end Denflow
